import Mathlib

/-!
Shallow embedding of the documentation-extraction core of `src/src/lib.rs`
(the `DocData` pipeline: `DocData::new`, `DocData::build_data`,
`DocData::to_json`), together with a byte-level model of the unchecked
string slice `qualname[..len - 2]` used for crate-name normalization.

The external `rls_analysis::AnalysisHost` collaborator is modelled as a
record of its three queries used by the core: `def_roots`, `get_def`
and `for_each_child_def`.  Fallible queries return `Option`; `none`
models the analysis error the Rust code propagates with `?`.

Rust's `HashMap` has an unspecified, per-instance randomized iteration
order.  The symbol table is modelled as an association list built with
`HashMap::insert` semantics (a later insert for the same key replaces the
earlier value), and `to_json`, which iterates `self.data.iter()`, takes
the enumeration produced by that iteration as an explicit argument
`iter`; every theorem constrains `iter` to be a permutation of the
table's entries, which is exactly what `HashMap` iteration guarantees.
-/

/-- Model of `rls_analysis::raw::DefKind` — the definition kinds matched in
`DocData::build_data`.  `Mcro` models `DefKind::Macro` and `TyAlias`
models `DefKind::Type` (both source names collide with Lean keywords or
reserved tokens). -/
inductive DefKind where
  | Mod
  | Static
  | Const
  | Enum
  | Struct
  | Union
  | Trait
  | Function
  | Mcro
  | Tuple
  | Method
  | TyAlias
  | Local
  | Field
deriving DecidableEq, Repr

/-- A definition record as returned by `get_def` / `for_each_child_def`:
the fields of `rls_analysis`'s `Def` that the core reads. -/
structure Def where
  kind : DefKind
  name : String
  qualname : String
  docs : String
deriving DecidableEq, Repr

/-- The `AnalysisHost` collaborator: `roots` models `def_roots()`
(pairs of id and crate name), `getDef` models `get_def(id)` and
`children` models `for_each_child_def(id, |_, def| def.clone())`.
`none` models a propagated analysis error. -/
structure AnalysisHost where
  roots : List (Nat × String)
  getDef : Nat → Option Def
  children : Nat → Option (List Def)

/-- The error taxonomy of the core: `CrateNotFound` models
`CrateErr::new(crate_name)` and `DefinitionUnavailable` models an error
propagated from a failed `get_def` / `for_each_child_def` call. -/
inductive BuildErr where
  | CrateNotFound : String → BuildErr
  | DefinitionUnavailable : Nat → BuildErr
deriving DecidableEq, Repr

/-- The `struct Crate` of the source: `id`, `name`, `docs`, `modules`. -/
structure Crate where
  id : Nat
  name : String
  docs : String
  modules : List String
deriving DecidableEq, Repr

/-- The `enum Item` of the source; currently only `Item::Module`. -/
inductive Item where
  | Module : (name : String) → (docs : String) → Item
deriving DecidableEq, Repr

/-- The `struct DocData`: the crate summary plus the symbol table.  The Rust
field `data : HashMap<String, Item>` is modelled as an association list
with distinct keys (see `hmInsert`). -/
structure DocData where
  krate : Crate
  data : List (String × Item)
deriving DecidableEq, Repr

/-- Model of `HashMap::insert` semantics on the association-list model: if the
key is already present its value is replaced (the later entry silently
overwrites the earlier one), otherwise the new entry is added. -/
def hmInsert (m : List (String × Item)) (k : String) (v : Item) :
    List (String × Item) :=
  if m.any (fun p => p.1 = k) then
    m.map (fun p => if p.1 = k then (k, v) else p)
  else
    m ++ [(k, v)]

/-- The character-level model of the slice `qualname[..len - 2]` that
strips the trailing `"::"` from the root's qualified name (used in both
`DocData::new` and `DocData::to_json`).  The trailing separator is the
two ASCII bytes `"::"`, so on the documented inputs byte indices and
character indices coincide; the byte-level panic behaviour of the slice
is modelled separately by `rustStripRootName`. -/
def stripSuffix2 (s : String) : String :=
  ⟨s.data.take (s.data.length - 2)⟩

/-- One iteration of the `for def in defs.iter()` loop of
`DocData::build_data`: a `DefKind::Mod` child is inserted into the
symbol table keyed by its qualified name and its qualified name is
pushed onto `krate.modules`; every other kind is a no-op arm. -/
def buildDataStep (acc : List (String × Item) × Crate) (d : Def) :
    List (String × Item) × Crate :=
  match d.kind with
  | DefKind.Mod =>
      (hmInsert acc.1 d.qualname (Item.Module d.name d.docs),
       { acc.2 with modules := acc.2.modules ++ [d.qualname] })
  | DefKind.Static => acc
  | DefKind.Const => acc
  | DefKind.Enum => acc
  | DefKind.Struct => acc
  | DefKind.Union => acc
  | DefKind.Trait => acc
  | DefKind.Function => acc
  | DefKind.Mcro => acc
  | DefKind.Tuple => acc
  | DefKind.Method => acc
  | DefKind.TyAlias => acc
  | DefKind.Local => acc
  | DefKind.Field => acc

/-- The loop body of `DocData::build_data` over the fetched children:
starts from the fresh `HashMap::new()` and the given `krate`. -/
def buildDefs (defs : List Def) (krate : Crate) :
    List (String × Item) × Crate :=
  defs.foldl buildDataStep ([], krate)

/-- Model of `DocData::build_data(config, root_id, krate)`: fetches the direct
children via `for_each_child_def` (propagating failure) and runs the
kind-dispatch loop. -/
def DocData.build_data (host : AnalysisHost) (rootId : Nat)
    (krate : Crate) : Except BuildErr (List (String × Item) × Crate) :=
  match host.children rootId with
  | none => Except.error (BuildErr.DefinitionUnavailable rootId)
  | some defs => Except.ok (buildDefs defs krate)

/-- Model of `DocData::new(config)`: resolves the root by searching `def_roots()`
for the hardcoded name `"example"` (the source carries a FIXME on this),
fails with `CrateErr` when absent, fetches the root definition, strips
the trailing `"::"` from its qualified name to form `Crate.name`, and
runs `build_data`. -/
def DocData.new (host : AnalysisHost) : Except BuildErr DocData :=
  match host.roots.find? (fun r => r.2 == "example") with
  | none => Except.error (BuildErr.CrateNotFound "example")
  | some (rootId, _) =>
    match host.getDef rootId with
    | none => Except.error (BuildErr.DefinitionUnavailable rootId)
    | some rootDef =>
      let krate : Crate :=
        { id := rootId
          name := stripSuffix2 rootDef.qualname
          docs := rootDef.docs
          modules := [] }
      match DocData.build_data host rootId krate with
      | Except.error e => Except.error e
      | Except.ok (data, krate) => Except.ok { krate := krate, data := data }

/-- A JSON:API resource identifier `{type, id}` (`ResourceIdentifier` of
the `jsonapi` crate; the Rust field `_type` is `rtype` here). -/
structure ResourceIdentifier where
  rtype : String
  id : String
deriving DecidableEq, Repr

/-- A JSON:API resource (the fields of the `jsonapi` crate's `Resource`
that the core populates; attribute values are always JSON strings here,
and `links`/`meta` are always `None` in the source, so they are
omitted). -/
structure Resource where
  rtype : String
  id : String
  attributes : List (String × String)
  relationships : Option (List (String × List ResourceIdentifier))
deriving DecidableEq, Repr

/-- The `JsonApiDocument`: top-level `data` and `included`. -/
structure JsonApiDocument where
  data : Option Resource
  included : Option (List Resource)
deriving DecidableEq, Repr

/-- The resource identifiers pushed onto the `"modules"` relationship by
the `to_json` loop, one per enumerated symbol-table entry. -/
def identifiersOf (iter : List (String × Item)) : List ResourceIdentifier :=
  iter.map (fun p => { rtype := "module", id := p.1 })

/-- The included resources pushed by the `to_json` loop, one per
enumerated symbol-table entry. -/
def includedOf (iter : List (String × Item)) : List Resource :=
  iter.map (fun p =>
    match p.2 with
    | Item.Module name docs =>
        { rtype := "module"
          id := p.1
          attributes := [("name", name), ("docs", docs)]
          relationships := none })

/-- Model of `DocData::to_json(&self, config)`: re-fetches the root definition
via `self.krate.id` (propagating failure), builds the primary crate
resource with `docs` from the re-fetch and `id` from the re-fetched
qualified name with the trailing `"::"` stripped, and loops over the
symbol table pushing one `{type: "module", id}` identifier onto the
`"modules"` relationship and one included resource per entry.  `iter` is
the enumeration produced by `self.data.iter()` (see the module
docstring); `included` is initialized to `Some(Vec::new())` before the
loop, so it is present even when the table is empty. -/
def DocData.to_json (d : DocData) (host : AnalysisHost)
    (iter : List (String × Item)) : Except BuildErr JsonApiDocument :=
  match host.getDef d.krate.id with
  | none => Except.error (BuildErr.DefinitionUnavailable d.krate.id)
  | some rootDef =>
    let rootAttrs : List (String × String) := [("docs", rootDef.docs)]
    let relData := identifiersOf iter
    let included := includedOf iter
    let relationships := [("modules", relData)]
    Except.ok
      { data := some
          { rtype := "crate"
            id := stripSuffix2 rootDef.qualname
            attributes := rootAttrs
            relationships := some relationships }
        included := some included }

/-- JSON string rendering of an attribute map (a model of the
serializer; attribute values in the claims contain no characters that
need escaping). -/
def serializeAttrs (attrs : List (String × String)) : String :=
  "\x7b" ++ String.intercalate ","
    (attrs.map (fun p => "\"" ++ p.1 ++ "\":\"" ++ p.2 ++ "\"")) ++ "\x7d"

/-- JSON rendering of a resource identifier. -/
def serializeIdentifier (i : ResourceIdentifier) : String :=
  "\x7b\"type\":\"" ++ i.rtype ++ "\",\"id\":\"" ++ i.id ++ "\"\x7d"

/-- JSON rendering of a relationships map. -/
def serializeRelationships
    (rels : List (String × List ResourceIdentifier)) : String :=
  "\x7b" ++ String.intercalate ","
    (rels.map (fun r =>
      "\"" ++ r.1 ++ "\":\x7b\"data\":[" ++
        String.intercalate "," (r.2.map serializeIdentifier) ++ "]\x7d")) ++
  "\x7d"

/-- JSON rendering of a resource. -/
def serializeResource (r : Resource) : String :=
  "\x7b\"type\":\"" ++ r.rtype ++ "\",\"id\":\"" ++ r.id ++
    "\",\"attributes\":" ++ serializeAttrs r.attributes ++
    (match r.relationships with
     | none => ""
     | some rels => ",\"relationships\":" ++ serializeRelationships rels) ++
  "\x7d"

/-- The serializer model: renders the document to the JSON byte stream
(`serde_json::to_string`), with `data` as a single object and `included`
as an always-present array. -/
def serializeDoc (doc : JsonApiDocument) : String :=
  "\x7b\"data\":" ++
    (match doc.data with
     | none => "null"
     | some r => serializeResource r) ++
    ",\"included\":" ++
    (match doc.included with
     | none => "null"
     | some rs =>
        "[" ++ String.intercalate "," (rs.map serializeResource) ++ "]") ++
  "\x7d"

/-- Byte-level model of `str::is_char_boundary(i)`: true at 0, at the
byte just past the end, and at any byte that is not a UTF-8 continuation
byte (`b < 0x80 || b >= 0xC0`). -/
def isCharBoundaryAt (bs : List Nat) (i : Nat) : Bool :=
  if i = 0 then true
  else
    match bs[i]? with
    | none => i == bs.length
    | some b => decide (b < 128) || decide (192 ≤ b)

/-- Byte-level model of the slice `s[..k]`: `none` models the panic
raised when `k` is past the end or not a character boundary. -/
def rustSliceTo (bs : List Nat) (k : Nat) : Option (List Nat) :=
  if isCharBoundaryAt bs k then some (bs.take k) else none

/-- Byte-level model of `qualname[..(len - 2)]` as written in
`DocData::new` and `DocData::to_json`: `len` is the byte length, `len -
2` underflows (panics) when the string is shorter than 2 bytes, and the
slice itself panics when byte position `len - 2` is not a character
boundary.  `none` models the panic. -/
def rustStripRootName (bs : List Nat) : Option (List Nat) :=
  if bs.length < 2 then none
  else rustSliceTo bs (bs.length - 2)

/-- The document that `to_json` renders when the root re-fetch returns
`rootDef` and the symbol-table iteration yields `iter`. -/
def renderedDoc (rootDef : Def) (iter : List (String × Item)) : JsonApiDocument :=
  { data := some
      { rtype := "crate"
        id := stripSuffix2 rootDef.qualname
        attributes := [("docs", rootDef.docs)]
        relationships := some [("modules", identifiersOf iter)] }
    included := some (includedOf iter) }

/-- The root definition of the two-module host used to exhibit the
iteration-order dependence of the serialized bytes. -/
def c6Root : Def :=
  { kind := DefKind.Mod, name := "example", qualname := "example::"
    docs := "root docs" }

/-- A host whose root crate `"example"` has two module children. -/
def c6Host : AnalysisHost :=
  { roots := [(1, "example")]
    getDef := fun i => if i = 1 then some c6Root else none
    children := fun i =>
      if i = 1 then
        some [{ kind := DefKind.Mod, name := "a", qualname := "example::a"
                docs := "" },
              { kind := DefKind.Mod, name := "b", qualname := "example::b"
                docs := "" }]
      else none }

/-- The symbol table extracted from `c6Host`. -/
def c6Table : List (String × Item) :=
  [("example::a", Item.Module "a" ""), ("example::b", Item.Module "b" "")]

/-- The `DocData` extracted from `c6Host`. -/
def c6Doc : DocData :=
  { krate := { id := 1, name := "example", docs := "root docs"
               modules := ["example::a", "example::b"] }
    data := c6Table }

/-- The root definition of the spec's end-to-end `demo` scenario. -/
def c4Root : Def :=
  { kind := DefKind.Mod, name := "demo", qualname := "demo::"
    docs := "Demo crate" }

/-- The module child `a` of the `demo` scenario. -/
def c4ModA : Def :=
  { kind := DefKind.Mod, name := "a", qualname := "demo::a", docs := "mod a" }

/-- The function child `f` of the `demo` scenario. -/
def c4FunF : Def :=
  { kind := DefKind.Function, name := "f", qualname := "demo::f", docs := "" }

/-- The `demo` scenario host: one registered root, crate name `"demo"`,
with the two children of the scenario. -/
def c4Host : AnalysisHost :=
  { roots := [(7, "demo")]
    getDef := fun i => if i = 7 then some c4Root else none
    children := fun i => if i = 7 then some [c4ModA, c4FunF] else none }

/-- A host identical to `c4Host` except that its root is registered
under the name `"example"`, the name `DocData::new` actually looks
for. -/
def c4HostRenamed : AnalysisHost :=
  { roots := [(7, "example")]
    getDef := c4Host.getDef
    children := c4Host.children }

/-- Root definition of the small concrete host used to instantiate the
general theorems. -/
def wRoot : Def :=
  { kind := DefKind.Mod, name := "example", qualname := "example::"
    docs := "docs0" }

/-- Module child of the concrete host. -/
def wModA : Def :=
  { kind := DefKind.Mod, name := "a", qualname := "example::a", docs := "da" }

/-- Function (non-module) child of the concrete host. -/
def wFunF : Def :=
  { kind := DefKind.Function, name := "f", qualname := "example::f"
    docs := "" }

/-- Concrete host: root id 3, crate `"example"`, one module child and
one function child. -/
def wHost : AnalysisHost :=
  { roots := [(3, "example")]
    getDef := fun i => if i = 3 then some wRoot else none
    children := fun i => if i = 3 then some [wModA, wFunF] else none }

/-- The crate summary as freshly created in `DocData::new`, before the
traversal loop. -/
def wK0 : Crate :=
  { id := 3, name := "example", docs := "docs0", modules := [] }

/-- The `DocData` extracted from `wHost`. -/
def wDoc : DocData :=
  { krate := { id := 3, name := "example", docs := "docs0"
               modules := ["example::a"] }
    data := [("example::a", Item.Module "a" "da")] }

/-- The same root definition with its documentation changed, modelling a
documentation reload between extraction and build. -/
def wRootB : Def :=
  { kind := DefKind.Mod, name := "example", qualname := "example::"
    docs := "docs1" }

/-- The host `wHost` after the documentation reload. -/
def wHostB : AnalysisHost :=
  { roots := [(3, "example")]
    getDef := fun i => if i = 3 then some wRootB else none
    children := fun i => if i = 3 then some [wModA, wFunF] else none }

/-- A host with no root named `"example"` and no resolvable ids. -/
def w8Host : AnalysisHost :=
  { roots := [(9, "other")]
    getDef := fun _ => none
    children := fun _ => none }

/-- A second module child sharing `wModA`'s qualified name. -/
def wModA2 : Def :=
  { kind := DefKind.Mod, name := "a2", qualname := "example::a", docs := "da2" }

theorem stripSuffix2_append (n : String) : stripSuffix2 (n ++ "::") = n := by
  have h : (n ++ "::").data = n.data ++ [':', ':'] := String.data_append n "::"
  unfold stripSuffix2
  rw [h, List.length_append]
  have h2 : n.data.length + [':', ':'].length - 2 = n.data.length := rfl
  rw [h2, List.take_left]

theorem buildDataStep_nonmod (acc : List (String × Item) × Crate) (d : Def)
    (h : d.kind ≠ DefKind.Mod) : buildDataStep acc d = acc := by
  unfold buildDataStep
  cases hk : d.kind <;> simp_all

theorem hmInsert_keys_mem (m : List (String × Item)) (k : String) (v : Item)
    (q : String) :
    q ∈ (hmInsert m k v).map Prod.fst ↔ q ∈ m.map Prod.fst ∨ q = k := by
  unfold hmInsert
  by_cases hany : m.any (fun p => p.1 = k)
  · rw [if_pos hany]
    have hk : k ∈ m.map Prod.fst := by
      simp only [List.any_eq_true, decide_eq_true_eq] at hany
      obtain ⟨p, hp, hpk⟩ := hany
      exact hpk ▸ List.mem_map_of_mem Prod.fst hp
    have hmap : (m.map (fun p => if p.1 = k then (k, v) else p)).map Prod.fst
        = m.map Prod.fst := by
      rw [List.map_map]
      apply List.map_congr_left
      intro p _
      by_cases hpk : p.1 = k
      · simp [hpk]
      · simp [hpk]
    rw [hmap]
    constructor
    · exact Or.inl
    · rintro (hq | rfl)
      · exact hq
      · exact hk
  · rw [if_neg hany]
    simp [List.map_append]

theorem hmInsert_keys_nodup (m : List (String × Item)) (k : String) (v : Item)
    (h : (m.map Prod.fst).Nodup) : ((hmInsert m k v).map Prod.fst).Nodup := by
  unfold hmInsert
  by_cases hany : m.any (fun p => p.1 = k)
  · rw [if_pos hany]
    have hmap : (m.map (fun p => if p.1 = k then (k, v) else p)).map Prod.fst
        = m.map Prod.fst := by
      rw [List.map_map]
      apply List.map_congr_left
      intro p _
      by_cases hpk : p.1 = k
      · simp [hpk]
      · simp [hpk]
    rw [hmap]; exact h
  · rw [if_neg hany]
    rw [List.map_append]
    have hk : k ∉ m.map Prod.fst := by
      simp only [List.any_eq_true, decide_eq_true_eq] at hany
      intro hc
      obtain ⟨p, hp, hpk⟩ := List.mem_map.mp hc
      exact hany ⟨p, hp, hpk⟩
    refine List.Nodup.append h (List.nodup_singleton k) ?_
    intro a ha hb
    simp at hb
    exact hk (hb ▸ ha)

theorem foldl_buildDataStep_filter (defs : List Def)
    (a : List (String × Item) × Crate) :
    defs.foldl buildDataStep a
      = (defs.filter (fun d => d.kind == DefKind.Mod)).foldl buildDataStep a := by
  induction defs generalizing a with
  | nil => rfl
  | cons d rest ih =>
    by_cases h : d.kind = DefKind.Mod
    · simp [List.filter_cons, h, List.foldl_cons, ih]
    · simp [List.filter_cons, h, List.foldl_cons, ih, buildDataStep_nonmod a d h]

theorem foldl_buildDataStep_keys_mem (defs : List Def)
    (a : List (String × Item) × Crate) (q : String)
    (h : q ∈ (defs.foldl buildDataStep a).1.map Prod.fst) :
    q ∈ a.1.map Prod.fst ∨ ∃ d ∈ defs, d.kind = DefKind.Mod ∧ d.qualname = q := by
  induction defs generalizing a with
  | nil => exact Or.inl h
  | cons d rest ih =>
    rw [List.foldl_cons] at h
    rcases ih (buildDataStep a d) h with hin | ⟨c, hc, hck, hcq⟩
    · by_cases hk : d.kind = DefKind.Mod
      · unfold buildDataStep at hin
        rw [hk] at hin
        rcases (hmInsert_keys_mem a.1 d.qualname _ q).mp hin with hin' | rfl
        · exact Or.inl hin'
        · exact Or.inr ⟨d, List.mem_cons_self d rest, hk, rfl⟩
      · rw [buildDataStep_nonmod a d hk] at hin
        exact Or.inl hin
    · exact Or.inr ⟨c, List.mem_cons_of_mem d hc, hck, hcq⟩

theorem foldl_buildDataStep_keys_nodup (defs : List Def)
    (a : List (String × Item) × Crate)
    (h : (a.1.map Prod.fst).Nodup) :
    ((defs.foldl buildDataStep a).1.map Prod.fst).Nodup := by
  induction defs generalizing a with
  | nil => exact h
  | cons d rest ih =>
    rw [List.foldl_cons]
    apply ih
    by_cases hk : d.kind = DefKind.Mod
    · unfold buildDataStep
      rw [hk]
      exact hmInsert_keys_nodup a.1 d.qualname _ h
    · rw [buildDataStep_nonmod a d hk]
      exact h

theorem foldl_buildDataStep_modules (defs : List Def)
    (a : List (String × Item) × Crate) :
    (defs.foldl buildDataStep a).2.modules
      = a.2.modules
        ++ (defs.filter (fun d => d.kind == DefKind.Mod)).map Def.qualname := by
  induction defs generalizing a with
  | nil => simp
  | cons d rest ih =>
    by_cases h : d.kind = DefKind.Mod
    · rw [List.foldl_cons, ih]
      unfold buildDataStep
      rw [h]
      simp [List.filter_cons, h]
    · rw [List.foldl_cons, buildDataStep_nonmod a d h, ih]
      simp [List.filter_cons, h]

theorem buildDataStep_krate (a : List (String × Item) × Crate) (d : Def) :
    (buildDataStep a d).2.id = a.2.id
    ∧ (buildDataStep a d).2.name = a.2.name
    ∧ (buildDataStep a d).2.docs = a.2.docs := by
  unfold buildDataStep
  cases d.kind <;> simp

theorem foldl_buildDataStep_krate (defs : List Def)
    (a : List (String × Item) × Crate) :
    (defs.foldl buildDataStep a).2.id = a.2.id
    ∧ (defs.foldl buildDataStep a).2.name = a.2.name
    ∧ (defs.foldl buildDataStep a).2.docs = a.2.docs := by
  induction defs generalizing a with
  | nil => exact ⟨rfl, rfl, rfl⟩
  | cons d rest ih =>
    rw [List.foldl_cons]
    rcases ih (buildDataStep a d) with ⟨h1, h2, h3⟩
    rcases buildDataStep_krate a d with ⟨g1, g2, g3⟩
    exact ⟨h1.trans g1, h2.trans g2, h3.trans g3⟩

theorem DocData.new_ok {host : AnalysisHost} {d : DocData}
    (h : DocData.new host = Except.ok d) :
    ∃ rootId rootName rootDef defs,
      host.roots.find? (fun r => r.2 == "example") = some (rootId, rootName)
      ∧ host.getDef rootId = some rootDef
      ∧ host.children rootId = some defs
      ∧ d.data = (buildDefs defs
          (Crate.mk rootId (stripSuffix2 rootDef.qualname) rootDef.docs [])).1
      ∧ d.krate = (buildDefs defs
          (Crate.mk rootId (stripSuffix2 rootDef.qualname) rootDef.docs [])).2 := by
  unfold DocData.new DocData.build_data at h
  split at h
  · exact absurd h (by simp)
  · rename_i root rootId rootName hfind
    split at h
    · exact absurd h (by simp)
    · rename_i rootDef hdef
      split at h
      · exact absurd h (by simp)
      · rename_i defs hch
        simp only [Except.ok.injEq] at h
        exact ⟨rootId, rootName, rootDef, defs, hfind, hdef, hch,
          by rw [← h], by rw [← h]⟩

theorem to_json_eq_ok (d : DocData) (host : AnalysisHost)
    (iter : List (String × Item)) (rootDef : Def)
    (h : host.getDef d.krate.id = some rootDef) :
    d.to_json host iter = Except.ok (renderedDoc rootDef iter) := by
  unfold DocData.to_json renderedDoc
  rw [h]

theorem to_json_ok_inv {d : DocData} {host : AnalysisHost}
    {iter : List (String × Item)} {doc : JsonApiDocument}
    (h : d.to_json host iter = Except.ok doc) :
    ∃ rootDef, host.getDef d.krate.id = some rootDef
      ∧ doc = renderedDoc rootDef iter := by
  cases hdef : host.getDef d.krate.id with
  | none =>
      unfold DocData.to_json at h
      rw [hdef] at h
      exact absurd h (by simp)
  | some rootDef =>
      rw [to_json_eq_ok d host iter rootDef hdef] at h
      simp only [Except.ok.injEq] at h
      exact ⟨rootDef, rfl, h.symm⟩

/-- C10: the unchecked byte slice `qualname[..len - 2]` used by both the
extractor (`DocData::new`) and the builder (`DocData::to_json`) is total
exactly on inputs where stripping 2 bytes is well-formed: on a qualified
name ending in the 2-byte separator `"::"` it returns the prefix, while
on a name shorter than 2 bytes, or one where byte position `len - 2` is
not a UTF-8 character boundary, it panics (modelled as `none`) instead
of returning an error. -/
theorem unchecked_slice_total_only_on_separator :
    (∀ pre : List Nat, rustStripRootName (pre ++ [58, 58]) = some pre)
    ∧ (∀ bs : List Nat, bs.length < 2 → rustStripRootName bs = none)
    ∧ (∀ bs : List Nat, 2 ≤ bs.length →
        isCharBoundaryAt bs (bs.length - 2) = false →
        rustStripRootName bs = none) := by
  refine ⟨?_, ?_, ?_⟩
  · intro pre
    unfold rustStripRootName rustSliceTo
    have hlen : (pre ++ [58, 58]).length = pre.length + 2 := by
      simp [List.length_append]
    rw [hlen]
    rw [if_neg (by omega)]
    have hsub : pre.length + 2 - 2 = pre.length := by omega
    rw [hsub]
    have hbound : isCharBoundaryAt (pre ++ [58, 58]) pre.length = true := by
      unfold isCharBoundaryAt
      by_cases h0 : pre.length = 0
      · rw [if_pos h0]
      · rw [if_neg h0]
        have hget : (pre ++ [58, 58])[pre.length]? = some 58 := by
          rw [List.getElem?_append_right (Nat.le_refl pre.length)]
          simp
        rw [hget]
        simp
    rw [if_pos hbound]
    rw [List.take_left]
  · intro bs h
    unfold rustStripRootName
    rw [if_pos h]
  · intro bs hlen hbound
    unfold rustStripRootName rustSliceTo
    rw [if_neg (by omega), if_neg (by simp [hbound])]

theorem unchecked_slice_witness :
    rustStripRootName [100, 58, 58] = some [100]
    ∧ rustStripRootName [100] = none
    ∧ ((2 : Nat) ≤ [195, 169, 58].length
        ∧ isCharBoundaryAt [195, 169, 58] ([195, 169, 58].length - 2) = false
        ∧ rustStripRootName [195, 169, 58] = none) :=
  ⟨unchecked_slice_total_only_on_separator.1 [100],
   unchecked_slice_total_only_on_separator.2.1 [100] (by decide),
   by decide, by decide,
   unchecked_slice_total_only_on_separator.2.2 [195, 169, 58] (by decide) (by decide)⟩

/-- From a successful extraction, the crate summary's `id`, `name` and
`docs` are those computed from the extraction-time root fetch. -/
theorem DocData.new_krate_fields {host : AnalysisHost} {d : DocData}
    (h : DocData.new host = Except.ok d) :
    ∃ rootId rootName rootDef,
      host.roots.find? (fun r => r.2 == "example") = some (rootId, rootName)
      ∧ host.getDef rootId = some rootDef
      ∧ d.krate.id = rootId
      ∧ d.krate.name = stripSuffix2 rootDef.qualname
      ∧ d.krate.docs = rootDef.docs := by
  obtain ⟨rootId, rootName, rootDef, defs, hfind, hdef, hch, hdata, hkrate⟩ :=
    DocData.new_ok h
  rcases foldl_buildDataStep_krate defs
      ([], Crate.mk rootId (stripSuffix2 rootDef.qualname) rootDef.docs []) with
    ⟨h1, h2, h3⟩
  refine ⟨rootId, rootName, rootDef, hfind, hdef, ?_, ?_, ?_⟩
  · rw [hkrate]; exact h1
  · rw [hkrate]; exact h2
  · rw [hkrate]; exact h3

/-- C2: for a root whose qualified name is `"<name>::"`, extraction sets
`Crate.name` to `"<name>"` by the fixed 2-character strip, and the
primary resource `id` computed independently in `to_json` equals the
same `"<name>"`. -/
theorem crate_name_strip_consistent
    (host : AnalysisHost) (d : DocData) (iter : List (String × Item))
    (doc : JsonApiDocument) (rd : Def) (n : String)
    (hnew : DocData.new host = Except.ok d)
    (hrd : host.getDef d.krate.id = some rd)
    (hq : rd.qualname = n ++ "::")
    (hjson : d.to_json host iter = Except.ok doc) :
    d.krate.name = n ∧ ∃ prim, doc.data = some prim ∧ prim.id = n := by
  obtain ⟨rootId, rootName, rootDef, hfind, hdef, hid, hname, hdocs⟩ :=
    DocData.new_krate_fields hnew
  have hrd' : rootDef = rd := by
    rw [hid, hdef] at hrd
    injection hrd with h
  obtain ⟨rd', hrd2, hdoc⟩ := to_json_ok_inv hjson
  have hrd'' : rd' = rd := by
    rw [hrd] at hrd2
    injection hrd2 with h
    exact h.symm
  refine ⟨?_, ?_⟩
  · rw [hname, hrd', hq, stripSuffix2_append]
  · refine ⟨{ rtype := "crate", id := stripSuffix2 rd'.qualname,
              attributes := [("docs", rd'.docs)],
              relationships := some [("modules", identifiersOf iter)] }, ?_, ?_⟩
    · rw [hdoc]; rfl
    · show stripSuffix2 rd'.qualname = n
      rw [hrd'', hq, stripSuffix2_append]

/-- C7: the builder re-fetches the root via the stored id; the primary
resource's `docs` equals the re-fetched docs (for whatever host state is
current at build time), and the output is unchanged if the docs cached
in the `DocData` at extraction time are replaced by anything else. -/
theorem root_docs_refetched_at_build
    (hostE hostB : AnalysisHost) (d : DocData) (iter : List (String × Item))
    (rd : Def) (doc : JsonApiDocument) (cachedDocs : String)
    (hnew : DocData.new hostE = Except.ok d)
    (hrd : hostB.getDef d.krate.id = some rd)
    (hjson : d.to_json hostB iter = Except.ok doc) :
    (∃ prim, doc.data = some prim ∧ prim.attributes = [("docs", rd.docs)])
    ∧ DocData.to_json
        { krate := { d.krate with docs := cachedDocs }, data := d.data }
        hostB iter
      = DocData.to_json d hostB iter := by
  constructor
  · obtain ⟨rd', hrd2, hdoc⟩ := to_json_ok_inv hjson
    have hrd'' : rd' = rd := by
      rw [hrd] at hrd2
      injection hrd2 with h
      exact h.symm
    refine ⟨{ rtype := "crate", id := stripSuffix2 rd'.qualname,
              attributes := [("docs", rd'.docs)],
              relationships := some [("modules", identifiersOf iter)] }, ?_, ?_⟩
    · rw [hdoc]; rfl
    · rw [hrd'']
  · rfl

/-- C8: analysis failures propagate immediately and fatally: a missing
root named `"example"` yields `CrateNotFound` from `DocData::new` (so no
document is produced), a failing root re-fetch in `to_json` propagates
`DefinitionUnavailable`, and a successful `to_json` always carries a
complete document (primary resource, relationships and the `included`
array all present) — the `Except` result is either an error or a whole
document, never a partial one. -/
theorem errors_propagate_no_partial_output :
    (∀ host : AnalysisHost, (∀ r ∈ host.roots, r.2 ≠ "example") →
      DocData.new host = Except.error (BuildErr.CrateNotFound "example"))
    ∧ (∀ (d : DocData) (host : AnalysisHost) (iter : List (String × Item)),
        host.getDef d.krate.id = none →
        d.to_json host iter
          = Except.error (BuildErr.DefinitionUnavailable d.krate.id))
    ∧ (∀ (d : DocData) (host : AnalysisHost) (iter : List (String × Item))
        (doc : JsonApiDocument),
        d.to_json host iter = Except.ok doc →
        ∃ prim incl, doc.data = some prim ∧ doc.included = some incl
          ∧ prim.relationships ≠ none) := by
  refine ⟨?_, ?_, ?_⟩
  · intro host h
    have hfind : host.roots.find? (fun r => r.2 == "example") = none := by
      rw [List.find?_eq_none]
      intro r hr
      simpa using h r hr
    unfold DocData.new
    rw [hfind]
  · intro d host iter h
    unfold DocData.to_json
    rw [h]
  · intro d host iter doc h
    obtain ⟨rd, hrd, hdoc⟩ := to_json_ok_inv h
    exact ⟨_, _, by rw [hdoc]; rfl, by rw [hdoc]; rfl, by simp⟩

/-- C9: included-resource identities are pairwise distinct because the
symbol table is keyed by qualified name, and when two module children
share a qualified name the later insert overwrites the earlier entry,
leaving exactly one table entry (hence one included resource) for that
qualified name. -/
theorem included_resource_ids_distinct
    (host : AnalysisHost) (d : DocData) (iter : List (String × Item))
    (hnew : DocData.new host = Except.ok d)
    (hperm : iter.Perm d.data) :
    ((includedOf iter).map (fun r => (r.rtype, r.id))).Nodup
    ∧ (∀ (c1 c2 : Def) (k : Crate),
        c1.kind = DefKind.Mod → c2.kind = DefKind.Mod →
        c1.qualname = c2.qualname →
        (buildDefs [c1, c2] k).1
          = [(c2.qualname, Item.Module c2.name c2.docs)]) := by
  constructor
  · obtain ⟨rootId, rootName, rootDef, defs, hfind, hdef, hch, hdata, hkrate⟩ :=
      DocData.new_ok hnew
    have hkeys : (d.data.map Prod.fst).Nodup := by
      rw [hdata]
      exact foldl_buildDataStep_keys_nodup defs _ List.nodup_nil
    have hiterkeys : (iter.map Prod.fst).Nodup :=
      (hperm.symm.map Prod.fst).nodup hkeys
    have hproj : (includedOf iter).map (fun r => (r.rtype, r.id))
        = (iter.map Prod.fst).map (fun a => (("module" : String), a)) := by
      unfold includedOf
      rw [List.map_map, List.map_map]
      apply List.map_congr_left
      rintro ⟨k, it⟩ -
      cases it
      rfl
    rw [hproj]
    exact hiterkeys.map (fun a b hab => by simpa using hab)
  · intro c1 c2 k h1 h2 hq
    unfold buildDefs
    simp only [List.foldl_cons, List.foldl_nil]
    unfold buildDataStep
    rw [h1, h2]
    unfold hmInsert
    simp [hq]

/-- In a list whose projection under `f` has no duplicates, exactly one
element projects to any given value in the image. -/
theorem countP_proj_eq_one {α β : Type} [DecidableEq β] (l : List α)
    (f : α → β) (hnd : (l.map f).Nodup) (b : β) (hb : b ∈ l.map f) :
    l.countP (fun y => decide (f y = b)) = 1 := by
  induction l with
  | nil => simp at hb
  | cons a t ih =>
    rw [List.map_cons, List.nodup_cons] at hnd
    obtain ⟨hna, hnt⟩ := hnd
    rw [List.map_cons, List.mem_cons] at hb
    rw [List.countP_cons]
    rcases hb with hb | hb
    · subst hb
      have hz : t.countP (fun y => decide (f y = f a)) = 0 := by
        rw [List.countP_eq_zero]
        intro y hy
        simp only [decide_eq_true_eq]
        intro hc
        exact hna (hc ▸ List.mem_map_of_mem f hy)
      simp [hz]
    · have hab : f a ≠ b := fun hc => hna (hc ▸ hb)
      simp [hab, ih hnt hb]

/-- The identifier list and the included-resource list project to the
same `(type, id)` sequence: both traverse the same enumeration. -/
theorem identifiers_included_same_ids (iter : List (String × Item)) :
    (identifiersOf iter).map (fun i => (i.rtype, i.id))
      = (includedOf iter).map (fun r => (r.rtype, r.id)) := by
  unfold identifiersOf includedOf
  rw [List.map_map, List.map_map]
  apply List.map_congr_left
  rintro ⟨k, it⟩ -
  cases it
  rfl

/-- C1: the `"modules"` relationship's identifier list and the included
resources are in lock-step: they project to the same `(type, id)`
sequence, each identifier matches exactly one included resource and
vice versa, and for an empty symbol table the relationship data is `[]`
while `included` is the (present) empty array. -/
theorem modules_relationship_lockstep
    (host : AnalysisHost) (d : DocData) (iter : List (String × Item))
    (doc : JsonApiDocument)
    (hnew : DocData.new host = Except.ok d)
    (hperm : iter.Perm d.data)
    (hjson : d.to_json host iter = Except.ok doc) :
    ∃ prim rel,
      doc.data = some prim
      ∧ prim.relationships = some [("modules", rel)]
      ∧ doc.included = some (includedOf iter)
      ∧ rel = identifiersOf iter
      ∧ rel.map (fun i => (i.rtype, i.id))
          = (includedOf iter).map (fun r => (r.rtype, r.id))
      ∧ (∀ i ∈ rel, (includedOf iter).countP
          (fun r => decide ((r.rtype, r.id) = (i.rtype, i.id))) = 1)
      ∧ (∀ r ∈ includedOf iter, rel.countP
          (fun i => decide ((i.rtype, i.id) = (r.rtype, r.id))) = 1)
      ∧ (d.data = [] → rel = [] ∧ doc.included = some []) := by
  obtain ⟨rd, hrd, hdoc⟩ := to_json_ok_inv hjson
  obtain ⟨rootId, rootName, rootDef, defs, hfind, hdef, hch, hdata, hkrate⟩ :=
    DocData.new_ok hnew
  have hkeys : (d.data.map Prod.fst).Nodup := by
    rw [hdata]
    exact foldl_buildDataStep_keys_nodup defs _ List.nodup_nil
  have hiterkeys : (iter.map Prod.fst).Nodup :=
    (hperm.symm.map Prod.fst).nodup hkeys
  have hidproj : (identifiersOf iter).map (fun i => (i.rtype, i.id))
      = (iter.map Prod.fst).map (fun a => (("module" : String), a)) := by
    unfold identifiersOf
    rw [List.map_map, List.map_map]
    rfl
  have hpairs : ((identifiersOf iter).map (fun i => (i.rtype, i.id))).Nodup := by
    rw [hidproj]
    exact hiterkeys.map (fun a b hab => by simpa using hab)
  have hincpairs : ((includedOf iter).map (fun r => (r.rtype, r.id))).Nodup :=
    (identifiers_included_same_ids iter) ▸ hpairs
  refine ⟨_, identifiersOf iter, by rw [hdoc]; rfl, rfl,
    by rw [hdoc]; rfl,
    rfl, identifiers_included_same_ids iter, ?_, ?_, ?_⟩
  · intro i hi
    apply countP_proj_eq_one _ _ hincpairs
    rw [← identifiers_included_same_ids iter]
    exact List.mem_map_of_mem (fun i => (i.rtype, i.id)) hi
  · intro r hr
    apply countP_proj_eq_one _ _ hpairs
    rw [identifiers_included_same_ids iter]
    exact List.mem_map_of_mem (fun r => (r.rtype, r.id)) hr
  · intro hnil
    have : iter = [] := (hnil ▸ hperm).eq_nil
    subst this
    exact ⟨rfl, by rw [hdoc]; rfl⟩

/-- C5: a child definition of any non-module kind is a no-op for the
extractor — it inserts no symbol-table entry and appends nothing to the
module list — and, provided no module child shares its qualified name,
nothing in the built output (no included resource, no relationship
identifier) refers to it. -/
theorem nonmodule_children_no_output
    (defs : List Def) (k : Crate) (c : Def) (iter : List (String × Item))
    (hkind : c.kind ≠ DefKind.Mod)
    (hqual : ∀ d ∈ defs, d.kind = DefKind.Mod → d.qualname ≠ c.qualname)
    (hkm : c.qualname ∉ k.modules)
    (hiter : iter.Perm (buildDefs defs k).1) :
    (∀ acc, buildDataStep acc c = acc)
    ∧ buildDefs defs k
        = buildDefs (defs.filter (fun d => d.kind == DefKind.Mod)) k
    ∧ c.qualname ∉ (buildDefs defs k).1.map Prod.fst
    ∧ c.qualname ∉ (buildDefs defs k).2.modules
    ∧ c.qualname ∉ (identifiersOf iter).map ResourceIdentifier.id
    ∧ c.qualname ∉ (includedOf iter).map Resource.id := by
  have hkeymem : c.qualname ∉ (buildDefs defs k).1.map Prod.fst := by
    intro hmem
    rcases foldl_buildDataStep_keys_mem defs ([], k) c.qualname hmem with
      h0 | ⟨d, hd, hdk, hdq⟩
    · simp at h0
    · exact hqual d hd hdk hdq
  have hiterkey : c.qualname ∉ iter.map Prod.fst := by
    intro hmem
    exact hkeymem ((hiter.map Prod.fst).mem_iff.mp hmem)
  refine ⟨fun acc => buildDataStep_nonmod acc c hkind,
    foldl_buildDataStep_filter defs ([], k), hkeymem, ?_, ?_, ?_⟩
  · rw [show (buildDefs defs k).2.modules
        = k.modules ++ (defs.filter (fun d => d.kind == DefKind.Mod)).map
            Def.qualname from foldl_buildDataStep_modules defs ([], k)]
    rw [List.mem_append]
    rintro (h | h)
    · exact hkm h
    · obtain ⟨d, hd, hdq⟩ := List.mem_map.mp h
      rw [List.mem_filter] at hd
      exact hqual d hd.1 (by simpa using hd.2) hdq
  · intro hmem
    apply hiterkey
    unfold identifiersOf at hmem
    rw [List.map_map] at hmem
    simpa using hmem
  · intro hmem
    apply hiterkey
    unfold includedOf at hmem
    rw [List.map_map] at hmem
    obtain ⟨p, hp, hpq⟩ := List.mem_map.mp hmem
    obtain ⟨key, it⟩ := p
    cases it
    exact hpq ▸ List.mem_map_of_mem Prod.fst hp

/-- C6 counterexample: from the fixed host `c6Host`, both `c6Table` and
its reversal are legitimate `HashMap` iteration orders (permutations of
the extracted symbol table), yet the two serialized outputs differ
byte-for-byte — so building twice from the same unchanged source state
is not guaranteed to be byte-identical. -/
theorem build_twice_not_byte_identical :
    DocData.new c6Host = Except.ok c6Doc
    ∧ c6Table.Perm c6Doc.data
    ∧ c6Table.reverse.Perm c6Doc.data
    ∧ c6Doc.to_json c6Host c6Table = Except.ok (renderedDoc c6Root c6Table)
    ∧ c6Doc.to_json c6Host c6Table.reverse
        = Except.ok (renderedDoc c6Root c6Table.reverse)
    ∧ serializeDoc (renderedDoc c6Root c6Table)
        ≠ serializeDoc (renderedDoc c6Root c6Table.reverse) :=
  ⟨rfl, List.Perm.refl c6Table, List.reverse_perm c6Table, rfl, rfl, by decide⟩

/-- C6 amended: a second build from the same unchanged host state yields
a document that agrees with the first up to the `HashMap` iteration
order — the identifier and included lists of the two runs are
permutations of each other — and the serialized output is byte-identical
exactly when the two runs enumerate the symbol table in the same
order. -/
theorem build_deterministic_up_to_iteration
    (host : AnalysisHost) (d : DocData) (o1 o2 : List (String × Item))
    (rd : Def)
    (hnew : DocData.new host = Except.ok d)
    (hrd : host.getDef d.krate.id = some rd)
    (h1 : o1.Perm d.data) (h2 : o2.Perm d.data) :
    d.to_json host o1 = Except.ok (renderedDoc rd o1)
    ∧ d.to_json host o2 = Except.ok (renderedDoc rd o2)
    ∧ (identifiersOf o1).Perm (identifiersOf o2)
    ∧ (includedOf o1).Perm (includedOf o2)
    ∧ (o1 = o2 →
        serializeDoc (renderedDoc rd o1) = serializeDoc (renderedDoc rd o2)) := by
  have h12 : o1.Perm o2 := h1.trans h2.symm
  refine ⟨to_json_eq_ok d host o1 rd hrd, to_json_eq_ok d host o2 rd hrd,
    h12.map _, h12.map _, ?_⟩
  intro h
  rw [h]

/-- C3 (code bug): the database registers exactly one root, named
`"demo"` — the name any caller would supply — yet `DocData::new`
searches `def_roots()` only for the hardcoded name `"example"` (the
source marks this with a FIXME) and fails with `CrateNotFound`
carrying `"example"`, not the caller's crate name. -/
theorem root_lookup_hardcoded_example :
    (∃ r ∈ c4Host.roots, r.2 = "demo")
    ∧ DocData.new c4Host
        = Except.error (BuildErr.CrateNotFound "example") :=
  ⟨⟨(7, "demo"), List.mem_cons_self _ _, rfl⟩, rfl⟩

/-- C4 (code bug): on the spec's end-to-end `demo` input the pipeline
produces no document at all — extraction aborts with
`CrateNotFound("example")` because the root lookup is hardcoded — so the
expected output of the scenario is never built. -/
theorem demo_scenario_crate_not_found :
    DocData.new c4Host = Except.error (BuildErr.CrateNotFound "example") :=
  rfl

/-- Supporting evidence for the `demo` scenario: once the root is
registered under the name the code actually looks for, the rest of the
pipeline produces exactly the document the scenario expects — `data.id`
is `"demo"`, the docs are `"Demo crate"`, the single module `a` is the
only included resource and the only relationship identifier, and the
function `f` appears nowhere. -/
theorem demo_scenario_after_rename :
    ∃ d : DocData, DocData.new c4HostRenamed = Except.ok d
    ∧ d.data = [("demo::a", Item.Module "a" "mod a")]
    ∧ d.krate.modules = ["demo::a"]
    ∧ d.to_json c4HostRenamed d.data = Except.ok
        { data := some
            { rtype := "crate"
              id := "demo"
              attributes := [("docs", "Demo crate")]
              relationships := some
                [("modules", [{ rtype := "module", id := "demo::a" }])] }
          included := some
            [{ rtype := "module"
               id := "demo::a"
               attributes := [("name", "a"), ("docs", "mod a")]
               relationships := none }] } :=
  ⟨_, rfl, rfl, rfl, rfl⟩

theorem modules_relationship_lockstep_witness :
    ∃ prim rel,
      (renderedDoc wRoot wDoc.data).data = some prim
      ∧ prim.relationships = some [("modules", rel)]
      ∧ (renderedDoc wRoot wDoc.data).included = some (includedOf wDoc.data)
      ∧ rel = identifiersOf wDoc.data
      ∧ rel.map (fun i => (i.rtype, i.id))
          = (includedOf wDoc.data).map (fun r => (r.rtype, r.id))
      ∧ (∀ i ∈ rel, (includedOf wDoc.data).countP
          (fun r => decide ((r.rtype, r.id) = (i.rtype, i.id))) = 1)
      ∧ (∀ r ∈ includedOf wDoc.data, rel.countP
          (fun i => decide ((i.rtype, i.id) = (r.rtype, r.id))) = 1)
      ∧ (wDoc.data = [] → rel = []
          ∧ (renderedDoc wRoot wDoc.data).included = some []) :=
  modules_relationship_lockstep wHost wDoc wDoc.data
    (renderedDoc wRoot wDoc.data) rfl (List.Perm.refl _) rfl

theorem crate_name_strip_consistent_witness :
    wDoc.krate.name = "example"
    ∧ ∃ prim, (renderedDoc wRoot wDoc.data).data = some prim
        ∧ prim.id = "example" :=
  crate_name_strip_consistent wHost wDoc wDoc.data
    (renderedDoc wRoot wDoc.data) wRoot "example" rfl rfl rfl rfl

theorem nonmodule_children_no_output_witness :
    (∀ acc, buildDataStep acc wFunF = acc)
    ∧ buildDefs [wModA, wFunF] wK0
        = buildDefs ([wModA, wFunF].filter (fun d => d.kind == DefKind.Mod)) wK0
    ∧ wFunF.qualname ∉ (buildDefs [wModA, wFunF] wK0).1.map Prod.fst
    ∧ wFunF.qualname ∉ (buildDefs [wModA, wFunF] wK0).2.modules
    ∧ wFunF.qualname
        ∉ (identifiersOf (buildDefs [wModA, wFunF] wK0).1).map
            ResourceIdentifier.id
    ∧ wFunF.qualname
        ∉ (includedOf (buildDefs [wModA, wFunF] wK0).1).map Resource.id :=
  nonmodule_children_no_output [wModA, wFunF] wK0 wFunF _
    (by decide) (by decide) (by decide) (List.Perm.refl _)

theorem build_deterministic_up_to_iteration_witness :
    wDoc.to_json wHost wDoc.data = Except.ok (renderedDoc wRoot wDoc.data)
    ∧ wDoc.to_json wHost wDoc.data = Except.ok (renderedDoc wRoot wDoc.data)
    ∧ (identifiersOf wDoc.data).Perm (identifiersOf wDoc.data)
    ∧ (includedOf wDoc.data).Perm (includedOf wDoc.data)
    ∧ (wDoc.data = wDoc.data →
        serializeDoc (renderedDoc wRoot wDoc.data)
          = serializeDoc (renderedDoc wRoot wDoc.data)) :=
  build_deterministic_up_to_iteration wHost wDoc wDoc.data wDoc.data wRoot
    rfl rfl (List.Perm.refl _) (List.Perm.refl _)

theorem root_docs_refetched_at_build_witness :
    (∃ prim, (renderedDoc wRootB wDoc.data).data = some prim
        ∧ prim.attributes = [("docs", "docs1")])
    ∧ DocData.to_json
        { krate := { wDoc.krate with docs := "cached" }, data := wDoc.data }
        wHostB wDoc.data
      = DocData.to_json wDoc wHostB wDoc.data :=
  root_docs_refetched_at_build wHost wHostB wDoc wDoc.data wRootB
    (renderedDoc wRootB wDoc.data) "cached" rfl rfl rfl

theorem errors_propagate_no_partial_output_witness :
    DocData.new w8Host = Except.error (BuildErr.CrateNotFound "example")
    ∧ wDoc.to_json w8Host wDoc.data
        = Except.error (BuildErr.DefinitionUnavailable wDoc.krate.id)
    ∧ (∃ prim incl, (renderedDoc wRoot wDoc.data).data = some prim
        ∧ (renderedDoc wRoot wDoc.data).included = some incl
        ∧ prim.relationships ≠ none) :=
  ⟨errors_propagate_no_partial_output.1 w8Host (by decide),
   errors_propagate_no_partial_output.2.1 wDoc w8Host wDoc.data rfl,
   errors_propagate_no_partial_output.2.2 wDoc wHost wDoc.data
     (renderedDoc wRoot wDoc.data) rfl⟩

theorem included_resource_ids_distinct_witness :
    ((includedOf wDoc.data).map (fun r => (r.rtype, r.id))).Nodup
    ∧ (buildDefs [wModA, wModA2] wK0).1
        = [("example::a", Item.Module "a2" "da2")] :=
  ⟨(included_resource_ids_distinct wHost wDoc wDoc.data rfl
      (List.Perm.refl _)).1,
   (included_resource_ids_distinct wHost wDoc wDoc.data rfl
      (List.Perm.refl _)).2 wModA wModA2 wK0 rfl rfl rfl⟩
